import Mathlib

/-!
Shallow embedding of the `backuprunner` core (Go):
* `applyRetentionPolicy` (utils.go) — the retention-policy pass over a Storage handle;
* `LocalStorage.List` / `isBackupFile` (storage_local.go) — directory listing and the
  backup-file naming filter;
* `LocalStorage.Upload` (storage_local.go) — the copy/cancellation select race;
* the orchestrator `Run` (runner) — startup validation, startup run, cron registration
  and scheduled ticks.

Storage backends, the OS and the cron library are modelled as environments of
outcomes; the embedded functions return the trace of effect calls they issue
together with their Go return value (`Option String` stands for Go's `error`:
`none` is `nil`).
-/

namespace Backuprunner

/-! ### Byte-lexicographic string order (Go `sort.Strings` / `<` on strings).

Go compares strings byte-wise; on UTF-8 this coincides with code-point
lexicographic order, embedded here on `String.data`. -/

def lexLe : List Char → List Char → Bool
  | [], _ => true
  | _ :: _, [] => false
  | a :: as, b :: bs =>
    if a.toNat < b.toNat then true
    else if b.toNat < a.toNat then false
    else lexLe as bs

def lexLt : List Char → List Char → Bool
  | [], [] => false
  | [], _ :: _ => true
  | _ :: _, [] => false
  | a :: as, b :: bs =>
    if a.toNat < b.toNat then true
    else if b.toNat < a.toNat then false
    else lexLt as bs

def strLe (a b : String) : Bool := lexLe a.data b.data

def strLt (a b : String) : Bool := lexLt a.data b.data

theorem lexLe_total (a b : List Char) : lexLe a b || lexLe b a := by
  induction a generalizing b with
  | nil => cases b <;> simp [lexLe]
  | cons x xs ih =>
    cases b with
    | nil => simp [lexLe]
    | cons y ys =>
      simp only [lexLe]
      rcases Nat.lt_trichotomy x.toNat y.toNat with h | h | h
      · simp [h]
      · simp [h, Nat.lt_irrefl, ih ys]
      · simp [h, Nat.lt_asymm h]

theorem lexLe_trans (a b c : List Char) (hab : lexLe a b) (hbc : lexLe b c) :
    lexLe a c := by
  induction a generalizing b c with
  | nil => cases c <;> simp [lexLe]
  | cons x xs ih =>
    cases b with
    | nil => simp [lexLe] at hab
    | cons y ys =>
      cases c with
      | nil => simp [lexLe] at hbc
      | cons z zs =>
        simp only [lexLe] at hab hbc ⊢
        rcases Nat.lt_trichotomy x.toNat y.toNat with h1 | h1 | h1
        · rcases Nat.lt_trichotomy y.toNat z.toNat with h2 | h2 | h2
          · rw [if_pos (by omega)]
          · rw [if_pos (by omega)]
          · rw [if_neg (by omega), if_pos h2] at hbc
            exact absurd hbc (by simp)
        · rw [if_neg (by omega), if_neg (by omega)] at hab
          rcases Nat.lt_trichotomy y.toNat z.toNat with h2 | h2 | h2
          · rw [if_pos (by omega)]
          · rw [if_neg (by omega), if_neg (by omega)] at hbc
            rw [if_neg (by omega), if_neg (by omega)]
            exact ih ys zs hab hbc
          · rw [if_neg (by omega), if_pos h2] at hbc
            exact absurd hbc (by simp)
        · rw [if_neg (by omega), if_pos h1] at hab
          exact absurd hab (by simp)

theorem lexLt_irrefl (a : List Char) : lexLt a a = false := by
  induction a with
  | nil => simp [lexLt]
  | cons x xs ih => simp [lexLt, ih]

theorem lexLt_le {a b : List Char} (h : lexLt a b) : lexLe a b := by
  induction a generalizing b with
  | nil => cases b <;> simp [lexLe]
  | cons x xs ih =>
    cases b with
    | nil => simp [lexLt] at h
    | cons y ys =>
      simp only [lexLt] at h
      simp only [lexLe]
      rcases Nat.lt_trichotomy x.toNat y.toNat with h1 | h1 | h1
      · rw [if_pos h1]
      · rw [if_neg (by omega), if_neg (by omega)] at h ⊢
        exact ih h
      · rw [if_neg (by omega), if_pos h1] at h
        exact absurd h (by simp)

theorem strLt_ne {a b : String} (h : strLt a b) : a ≠ b := by
  intro hEq
  subst hEq
  simp [strLt, lexLt_irrefl] at h

/-! ### `isBackupFile` (storage_local.go lines 114-121).

```go
func isBackupFile(name string) bool {
	return strings.HasPrefix(name, "pg-backup_") &&
		(strings.HasSuffix(name, ".dump") ||
			strings.HasSuffix(name, ".sql") ||
			strings.HasSuffix(name, ".sql.gz") ||
			strings.HasSuffix(name, ".tar"))
}
```
`strings.HasPrefix`/`HasSuffix` are embedded on the character sequence. -/

def goHasPrefixStr (s p : String) : Bool := p.data.isPrefixOf s.data

def goHasSuffixStr (s p : String) : Bool := p.data.isSuffixOf s.data

def isBackupFile (name : String) : Bool :=
  goHasPrefixStr name "pg-backup_" &&
    (goHasSuffixStr name ".dump" ||
      goHasSuffixStr name ".sql" ||
      goHasSuffixStr name ".sql.gz" ||
      goHasSuffixStr name ".tar")

/-! ### `LocalStorage.List` (storage_local.go lines 76-94).

A directory is a list of entries `(name, isDir)`; `os.ReadDir` succeeding yields
them all, `List` keeps non-directory entries passing `isBackupFile` and sorts
ascending (`sort.Strings`). -/

structure DirEntry where
  name : String
  isDir : Bool
deriving DecidableEq

def listLocal (entries : List DirEntry) : List String :=
  ((entries.filter (fun e => !e.isDir && isBackupFile e.name)).map DirEntry.name).mergeSort
    strLe

/-! ### `applyRetentionPolicy` (utils.go lines 9-33).

The Storage handle is an environment: the result of `List`, and for each name the
result of `Delete` (`none` = success). The pass returns the sequence of `Delete`
calls it issued (with each call's outcome) and its own `error` return.

The Go loop runs `i` from `0` to `toDelete-1` indexing `backups[i]`; with the
spec's non-negative `retentionCount` (all claims assume `0 ≤ retentionCount`)
this is exactly the first `len(backups) - retentionCount` entries, embedded as
`List.take`. -/

structure RetentionStorage where
  listResult : Except String (List String)
  deleteResult : String → Option String

inductive REvent where
  | deleteOk (name : String)
  | deleteFail (name : String) (err : String)
deriving DecidableEq

def REvent.name : REvent → String
  | .deleteOk n => n
  | .deleteFail n _ => n

/-- One `s.Delete(ctx, name)` call, recorded with its outcome. -/
def deleteCall (s : RetentionStorage) (name : String) : REvent :=
  match s.deleteResult name with
  | none => REvent.deleteOk name
  | some e => REvent.deleteFail name e

def applyRetentionPolicy (s : RetentionStorage) (retentionCount : Int) :
    List REvent × Option String :=
  match s.listResult with
  | .error e => ([], some ("failed to list backups: " ++ e))
  | .ok backups =>
    if (backups.length : Int) ≤ retentionCount then
      ([], none)
    else
      let toDelete : Nat := ((backups.length : Int) - retentionCount).toNat
      ((backups.take toDelete).map (deleteCall s), none)

/-- The names the pass asked the storage to delete, in call order. -/
def deletesIssued (s : RetentionStorage) (retentionCount : Int) : List String :=
  ((applyRetentionPolicy s retentionCount).1).map REvent.name

/-! ### Retention pass as a state transition.

The storage state is the finite set of artifacts it holds, represented as the
list of their names; `List` succeeds and returns them sorted ascending
(`sort.Strings` in both backends), `Delete name` removes `name` from the state
when it succeeds and leaves the state unchanged when it fails (`fails name`).
The pass is `applyRetentionPolicy` composed with these operations. -/

def runRetentionPass (state : List String) (fails : String → Bool) (retentionCount : Int) :
    List String :=
  let backups := state.mergeSort strLe
  if (backups.length : Int) ≤ retentionCount then
    state
  else
    let toDelete : Nat := ((backups.length : Int) - retentionCount).toNat
    let deleted := (backups.take toDelete).filter (fun n => !fails n)
    state.filter (fun n => !deleted.contains n)

/-! ### `LocalStorage.Upload` (storage_local.go lines 31-74).

```go
	done := make(chan error, 1)
	go func() { _, errIoCopy := io.Copy(dst, src); done <- errIoCopy }()
	select {
	case <-ctx.Done():
		return ctx.Err()
	case err = <-done:
		...
	}
```
The environment fixes the outcome of each effect and the interleaving of the
copy goroutine with the `select`: `doneReady` says whether the copy's completion
signal is already available when the `select` runs, and `pickDone` resolves Go's
nondeterministic choice when both the cancellation channel and the completion
channel are ready. An already-expired context has `ctxCancelled = true`, whose
`ctx.Err()` is `"context canceled"`. When the context is live the `select`
blocks until the completion signal arrives, so it always takes the `done`
branch. -/

structure UploadEnv where
  openResult : Option String
  createResult : Option String
  copyResult : Option String
  ctxCancelled : Bool
  doneReady : Bool
  pickDone : Bool

def upload (env : UploadEnv) : Option String :=
  match env.openResult with
  | some e => some ("failed to open source file: " ++ e)
  | none =>
  match env.createResult with
  | some e => some ("failed to create destination file: " ++ e)
  | none =>
    let takeCtxBranch : Bool :=
      env.ctxCancelled && (!env.doneReady || !env.pickDone)
    if takeCtxBranch then
      some "context canceled"
    else
      match env.copyResult with
      | some e => some ("failed to copy file: " ++ e)
      | none => none

/-! ### Orchestrator `Run` (runner, src/unnamed/part_001).

The configuration fields the orchestrator reads, and an environment fixing the
outcome of each startup step, of the startup run, of cron registration, and of
the `Run` invocation at each cron tick before shutdown. The trace records what
the orchestrator invoked and under which kind of context; the returned
`Option String` is the function's `error` result (the final
`return nil` after graceful shutdown is `none`). -/

structure Config where
  backupCron : String
  storageType : String
  retentionCount : Int
  backupOnStart : Bool
  backupTimeout : Int

inductive CtxKind where
  | background
  | timeoutMinutes (m : Int)
deriving DecidableEq

inductive OEvent where
  | runCall (ctx : CtxKind) (result : Option String)
  | cronRegistered (id : Nat)
  | cronStarted
deriving DecidableEq

structure OrchEnv where
  configResult : Except String Config
  storageResult : Option String
  setStorageResult : Option String
  testConnResult : Option String
  startupRunResult : Option String
  addFuncResult : Except String Nat
  ticks : Nat
  tickRunResult : Nat → Option String

def orchestrate (env : OrchEnv) : List OEvent × Option String :=
  match env.configResult with
  | .error e => ([], some ("failed to load configuration: " ++ e))
  | .ok cfg =>
  match env.storageResult with
  | some e => ([], some ("failed to initialize storage: " ++ e))
  | none =>
  match env.setStorageResult with
  | some e => ([], some ("failed to set storage: " ++ e))
  | none =>
  match env.testConnResult with
  | some e => ([], some ("failed to connect to PostgreSQL: " ++ e))
  | none =>
    let startupEvents :=
      if cfg.backupOnStart then
        [OEvent.runCall CtxKind.background env.startupRunResult]
      else []
    match env.addFuncResult with
    | .error e => (startupEvents, some ("failed to add cron job: " ++ e))
    | .ok id =>
      let tickEvents := (List.range env.ticks).map fun i =>
        OEvent.runCall (CtxKind.timeoutMinutes cfg.backupTimeout) (env.tickRunResult i)
      (startupEvents ++ OEvent.cronRegistered id :: OEvent.cronStarted :: tickEvents,
        none)

theorem deleteCall_name (s : RetentionStorage) (name : String) :
    (deleteCall s name).name = name := by
  unfold deleteCall
  cases s.deleteResult name <;> rfl

theorem map_name_map_deleteCall (s : RetentionStorage) (l : List String) :
    (l.map (deleteCall s)).map REvent.name = l := by
  rw [List.map_map]
  have h : REvent.name ∘ deleteCall s = id := funext fun n => deleteCall_name s n
  rw [h, List.map_id]

theorem deletesIssued_ok (s : RetentionStorage) (r : Int) (l : List String)
    (hl : s.listResult = .ok l) :
    deletesIssued s r =
      if (l.length : Int) ≤ r then []
      else l.take ((l.length : Int) - r).toNat := by
  simp only [deletesIssued, applyRetentionPolicy, hl]
  split
  · rfl
  · exact map_name_map_deleteCall s _

/-- C1: with a listing of length `n` (sorted strictly ascending, per the Storage
contract) and non-negative `RetentionCount` `r`, the pass issues no deletes when
`n ≤ r`; when `n > r` it issues exactly `n - r` deletes, namely the `n - r`
lexicographically smallest names, in strictly ascending order; `r = 0` deletes
every listed name. -/
theorem retention_deletes_oldest (s : RetentionStorage) (r : Int) (l : List String)
    (hr : 0 ≤ r) (hl : s.listResult = .ok l)
    (hsorted : l.Pairwise (strLt · ·)) :
    ((l.length : Int) ≤ r → deletesIssued s r = []) ∧
    (r < (l.length : Int) →
      deletesIssued s r = l.take ((l.length : Int) - r).toNat ∧
      (deletesIssued s r).length = l.length - r.toNat ∧
      (deletesIssued s r).Pairwise (strLt · ·) ∧
      (∀ x ∈ deletesIssued s r, ∀ y ∈ l, y ∉ deletesIssued s r → strLt x y)) ∧
    (r = 0 → deletesIssued s r = l) := by
  have hd := deletesIssued_ok s r l hl
  refine ⟨fun h => by rw [hd, if_pos h], fun h => ?_, fun h => ?_⟩
  · rw [hd, if_neg (by omega)]
    refine ⟨rfl, ?_, ?_, ?_⟩
    · rw [List.length_take]; omega
    · exact hsorted.sublist (List.take_sublist _ _)
    · intro x hx y hy hyn
      have hsplit := List.take_append_drop ((l.length : Int) - r).toNat l
      have hpw : (l.take ((l.length : Int) - r).toNat ++
          l.drop ((l.length : Int) - r).toNat).Pairwise (strLt · ·) := by
        rw [hsplit]; exact hsorted
      have hy' : y ∈ l.take ((l.length : Int) - r).toNat ++
          l.drop ((l.length : Int) - r).toNat := by
        rw [hsplit]; exact hy
      rcases List.mem_append.mp hy' with hcase | hcase
      · exact absurd hcase hyn
      · exact (List.pairwise_append.mp hpw).2.2 x hx y hcase
  · subst h
    rw [hd]
    by_cases hnil : l = []
    · subst hnil; simp
    · have hpos : 0 < l.length := List.length_pos.mpr hnil
      rw [if_neg (by omega)]
      have hn : ((l.length : Int) - 0).toNat = l.length := by omega
      rw [hn, List.take_length]

/-- C1 witness: the spec's end-to-end example — three artifacts, retention 2,
exactly the smallest one is deleted. -/
theorem retention_deletes_oldest_witness :
    deletesIssued
        ⟨.ok ["pg-backup_1", "pg-backup_2", "pg-backup_3"], fun _ => none⟩ 2 =
      ["pg-backup_1"] := by
  have h := retention_deletes_oldest
    ⟨.ok ["pg-backup_1", "pg-backup_2", "pg-backup_3"], fun _ => none⟩ 2
    ["pg-backup_1", "pg-backup_2", "pg-backup_3"] (by decide) rfl (by decide)
  have h2 := (h.2.1 (by decide)).1
  simpa using h2

/-- C5: an individual `Delete` failure does not abort the pass — whatever the
pattern of per-name delete outcomes, the issued delete sequence equals the one
of a never-failing storage, each attempted name's outcome (success or reported
failure) is recorded, and the pass still returns `nil`. -/
theorem retention_delete_failure_isolation (s : RetentionStorage) (l : List String)
    (r : Int) (hl : s.listResult = .ok l) :
    deletesIssued s r = deletesIssued ⟨.ok l, fun _ => none⟩ r ∧
    (applyRetentionPolicy s r).1 = (deletesIssued s r).map (deleteCall s) ∧
    (applyRetentionPolicy s r).2 = none := by
  have h1 := deletesIssued_ok s r l hl
  have h2 := deletesIssued_ok ⟨.ok l, fun _ => none⟩ r l rfl
  refine ⟨h1.trans h2.symm, ?_, ?_⟩
  · simp only [deletesIssued, applyRetentionPolicy, hl]
    split
    · rfl
    · rw [map_name_map_deleteCall]
  · simp only [applyRetentionPolicy, hl]
    split <;> rfl

/-- C5 witness: a storage whose `Delete` fails on the first name still gets both
scheduled deletions attempted and the pass returns `nil`. -/
theorem retention_delete_failure_isolation_witness :
    deletesIssued
        ⟨.ok ["pg-backup_1.dump", "pg-backup_2.dump", "pg-backup_3.dump"],
          fun n => if n = "pg-backup_1.dump" then some "permission denied" else none⟩ 1 =
      deletesIssued
        ⟨.ok ["pg-backup_1.dump", "pg-backup_2.dump", "pg-backup_3.dump"],
          fun _ => none⟩ 1 ∧
    (applyRetentionPolicy
        ⟨.ok ["pg-backup_1.dump", "pg-backup_2.dump", "pg-backup_3.dump"],
          fun n => if n = "pg-backup_1.dump" then some "permission denied" else none⟩ 1).1 =
      (deletesIssued
        ⟨.ok ["pg-backup_1.dump", "pg-backup_2.dump", "pg-backup_3.dump"],
          fun n => if n = "pg-backup_1.dump" then some "permission denied" else none⟩ 1).map
        (deleteCall
          ⟨.ok ["pg-backup_1.dump", "pg-backup_2.dump", "pg-backup_3.dump"],
            fun n => if n = "pg-backup_1.dump" then some "permission denied" else none⟩) ∧
    (applyRetentionPolicy
        ⟨.ok ["pg-backup_1.dump", "pg-backup_2.dump", "pg-backup_3.dump"],
          fun n => if n = "pg-backup_1.dump" then some "permission denied" else none⟩ 1).2 =
      none :=
  retention_delete_failure_isolation _
    ["pg-backup_1.dump", "pg-backup_2.dump", "pg-backup_3.dump"] 1 rfl

/-- C6: when `List` fails, the pass returns the wrapped listing error and issues
no `Delete` call at all. -/
theorem retention_list_failure_aborts (s : RetentionStorage) (r : Int) (e : String)
    (hl : s.listResult = .error e) :
    applyRetentionPolicy s r = ([], some ("failed to list backups: " ++ e)) := by
  simp only [applyRetentionPolicy, hl]

/-- C6 witness: a storage whose listing fails with "io error". -/
theorem retention_list_failure_aborts_witness :
    applyRetentionPolicy ⟨.error "io error", fun _ => none⟩ 3 =
      ([], some ("failed to list backups: io error")) :=
  retention_list_failure_aborts ⟨.error "io error", fun _ => none⟩ 3 "io error" rfl

/-- C10: for a non-negative retention count the pass's own result is `nil`
whenever `List` succeeded — regardless of delete failures — and is the wrapped
`List` error otherwise; no other error is possible. -/
theorem retention_result_characterization (s : RetentionStorage) (r : Int)
    (hr : 0 ≤ r) :
    (applyRetentionPolicy s r).2 =
      (match s.listResult with
        | .ok _ => none
        | .error e => some ("failed to list backups: " ++ e)) := by
  rcases hcase : s.listResult with e | l <;>
    simp only [applyRetentionPolicy, hcase] <;>
    try split <;> rfl

/-- C10 witness: a storage whose every delete fails still yields a `nil` pass
result. -/
theorem retention_result_characterization_witness :
    (applyRetentionPolicy
        ⟨.ok ["pg-backup_1.dump", "pg-backup_2.dump"], fun _ => some "disk gone"⟩ 0).2 =
      (match (Except.ok ["pg-backup_1.dump", "pg-backup_2.dump"] :
          Except String (List String)) with
        | .ok _ => none
        | .error e => some ("failed to list backups: " ++ e)) :=
  retention_result_characterization
    ⟨.ok ["pg-backup_1.dump", "pg-backup_2.dump"], fun _ => some "disk gone"⟩ 0
    (by decide)

/-- C7: `LocalStorage.List` returns exactly the non-directory entry names that
match the naming convention, sorted ascending, and the convention includes
`"pg-backup_2024-01-01.dump"` while excluding `"readme.txt"` and
`"pg-backup_2024-01-01.dump.tmp"`. -/
theorem list_local_characterization (entries : List DirEntry) :
    (∀ n, n ∈ listLocal entries ↔
        ∃ e ∈ entries, e.isDir = false ∧ isBackupFile e.name = true ∧ e.name = n) ∧
    (listLocal entries).Pairwise (strLe · ·) ∧
    isBackupFile "pg-backup_2024-01-01.dump" = true ∧
    isBackupFile "readme.txt" = false ∧
    isBackupFile "pg-backup_2024-01-01.dump.tmp" = false := by
  refine ⟨fun n => ?_, ?_, by decide, by decide, by decide⟩
  · simp only [listLocal, List.mem_mergeSort, List.mem_map, List.mem_filter]
    constructor
    · rintro ⟨e, ⟨he, hcond⟩, rfl⟩
      rw [Bool.and_eq_true, Bool.not_eq_true'] at hcond
      exact ⟨e, he, hcond.1, hcond.2, rfl⟩
    · rintro ⟨e, he, hdir, hfile, rfl⟩
      exact ⟨e, ⟨he, by rw [Bool.and_eq_true, Bool.not_eq_true']; exact ⟨hdir, hfile⟩⟩, rfl⟩
  · exact List.sorted_mergeSort
      (fun a b c hab hbc => lexLe_trans a.data b.data c.data hab hbc)
      (fun a b => lexLe_total a.data b.data) _

unseal List.merge List.mergeSort in
/-- C2 counterexample: a storage holding one artifact whose deletion fails.
With `RetentionCount = 0` the pass leaves the artifact in place, so more than
`min(priorCount, RetentionCount) = 0` artifacts remain after the pass. -/
theorem retention_invariant_counterexample :
    runRetentionPass ["pg-backup_2024-01-01.dump"] (fun _ => true) 0 =
      ["pg-backup_2024-01-01.dump"] ∧
    ¬ ((runRetentionPass ["pg-backup_2024-01-01.dump"] (fun _ => true) 0).length ≤
        min (["pg-backup_2024-01-01.dump"] : List String).length (Int.toNat 0)) := by
  decide

theorem filter_not_contains_take (l : List String) (k : Nat) (hnodup : l.Nodup) :
    l.filter (fun n => !(l.take k).contains n) = l.drop k := by
  induction l generalizing k with
  | nil => simp
  | cons x xs ih =>
    cases k with
    | zero => simp
    | succ k =>
      rcases List.nodup_cons.mp hnodup with ⟨hx, hxs⟩
      rw [List.take_succ_cons, List.drop_succ_cons]
      rw [List.filter_cons_of_neg (by simp [List.contains_cons])]
      have h2 : xs.filter (fun n => !(x :: xs.take k).contains n) =
          xs.filter (fun n => !(xs.take k).contains n) := by
        apply List.filter_congr
        intro a ha
        have hax : (a == x) = false := by
          simp only [beq_eq_false_iff_ne, ne_eq]
          intro hEq
          exact hx (hEq ▸ ha)
        simp only [List.contains_cons, hax, Bool.false_or]
      rw [h2, ih _ hxs]

/-- C2 amended: when every deletion issued by the pass succeeds, after the pass
exactly `min(priorCount, RetentionCount)` artifacts remain and they are the
lexicographically largest (newest) ones — the suffix of the ascending listing.
(The state is the canonical ascending enumeration of the artifact set.) -/
theorem retention_invariant_success (state : List String) (fails : String → Bool)
    (r : Int) (hr : 0 ≤ r)
    (hsorted : state.Pairwise (strLt · ·))
    (hok : ∀ n ∈ state, fails n = false) :
    runRetentionPass state fails r =
      state.drop (((state.length : Int) - r).toNat) ∧
    (runRetentionPass state fails r).length = min state.length r.toNat := by
  have hms : state.mergeSort strLe = state :=
    List.mergeSort_of_sorted (hsorted.imp (fun h => lexLt_le h))
  have hmain : runRetentionPass state fails r =
      state.drop (((state.length : Int) - r).toNat) := by
    simp only [runRetentionPass, hms]
    by_cases hle : (state.length : Int) ≤ r
    · rw [if_pos hle]
      have h0 : ((state.length : Int) - r).toNat = 0 := by omega
      rw [h0, List.drop_zero]
    · rw [if_neg hle]
      have hfilter1 : (state.take (((state.length : Int) - r).toNat)).filter
          (fun n => !fails n) = state.take (((state.length : Int) - r).toNat) :=
        List.filter_eq_self.mpr
          (fun n hn => by rw [hok n (List.take_subset _ _ hn)]; rfl)
      have hnodup : state.Nodup := hsorted.imp (fun h => strLt_ne h)
      rw [hfilter1, filter_not_contains_take state _ hnodup]
  refine ⟨hmain, ?_⟩
  rw [hmain, List.length_drop]
  omega

/-- C2 amended witness: three sorted artifacts, retention 2, all deletes
succeed — the two newest remain. -/
theorem retention_invariant_success_witness :
    runRetentionPass ["pg-backup_1.dump", "pg-backup_2.dump", "pg-backup_3.dump"]
        (fun _ => false) 2 =
      (["pg-backup_1.dump", "pg-backup_2.dump", "pg-backup_3.dump"] : List String).drop
        (((3 : Int) - 2).toNat) ∧
    (runRetentionPass ["pg-backup_1.dump", "pg-backup_2.dump", "pg-backup_3.dump"]
        (fun _ => false) 2).length = min 3 (Int.toNat 2) :=
  retention_invariant_success
    ["pg-backup_1.dump", "pg-backup_2.dump", "pg-backup_3.dump"] (fun _ => false) 2
    (by decide) (by decide) (fun n _ => rfl)

/-- C4 counterexample: with an already-expired context, when the copy has
already completed and deposited its signal before the `select` runs, Go's
`select` may pick the ready `done` branch; `Upload` then returns `nil` (the
copy's result), not a cancellation error — so "returns a cancellation error for
all interleavings" fails. -/
theorem upload_expired_ctx_counterexample :
    upload ⟨none, none, none, true, true, true⟩ = none ∧
    upload ⟨none, none, none, true, true, true⟩ ≠ some "context canceled" := by
  decide

/-- C4 amended: with an already-expired context (and source open / destination
create succeeding), `Upload` returns the context's cancellation error in every
interleaving in which the copy-completion signal is not yet ready at the
`select`, or in which the `select` resolves the race towards the cancellation
branch; when the completion signal is already ready the `select` may instead
return the copy's result. In every interleaving it returns (never hangs). -/
theorem upload_expired_ctx_cancellation (env : UploadEnv)
    (hctx : env.ctxCancelled = true)
    (hopen : env.openResult = none) (hcreate : env.createResult = none)
    (hsel : env.doneReady = false ∨ env.pickDone = false) :
    upload env = some "context canceled" := by
  simp only [upload, hopen, hcreate, hctx]
  rcases hsel with h | h <;> rw [h] <;> simp

/-- C4 amended witness: expired context, completion signal not yet ready —
`Upload` returns the cancellation error. -/
theorem upload_expired_ctx_cancellation_witness :
    upload ⟨none, none, none, true, false, true⟩ = some "context canceled" :=
  upload_expired_ctx_cancellation ⟨none, none, none, true, false, true⟩ rfl rfl rfl
    (.inl rfl)

/-- C3 counterexample: a configuration with run-on-startup enabled and every
startup step succeeding — the startup-triggered run is invoked under
`context.Background()`, an unbounded context, not under the per-run timeout. -/
theorem orchestrator_unbounded_startup_run :
    OEvent.runCall CtxKind.background none ∈
      (orchestrate
        { configResult := .ok ⟨"0 3 * * *", "local", 7, true, 30⟩
          storageResult := none
          setStorageResult := none
          testConnResult := none
          startupRunResult := none
          addFuncResult := .ok 1
          ticks := 1
          tickRunResult := fun _ => none }).1 := by
  decide

/-- C3 amended: every cron-scheduled run executes under a context bounded by
`BackupTimeout` minutes; only the run-on-startup run (when enabled) executes
under the unbounded background context. -/
theorem orchestrator_run_contexts (env : OrchEnv) (cfg : Config) (id : Nat)
    (hc : env.configResult = .ok cfg) (hs : env.storageResult = none)
    (hss : env.setStorageResult = none) (ht : env.testConnResult = none)
    (ha : env.addFuncResult = .ok id) :
    (∀ c res, OEvent.runCall c res ∈ (orchestrate env).1 →
        c = CtxKind.timeoutMinutes cfg.backupTimeout ∨
          (c = CtxKind.background ∧ cfg.backupOnStart = true ∧
            res = env.startupRunResult)) ∧
    (cfg.backupOnStart = true →
        OEvent.runCall CtxKind.background env.startupRunResult ∈
          (orchestrate env).1) := by
  simp only [orchestrate, hc, hs, hss, ht, ha]
  constructor
  · intro c res hmem
    rw [List.mem_append] at hmem
    rcases hmem with hmem | hmem
    · by_cases hb : cfg.backupOnStart
      · rw [if_pos hb] at hmem
        obtain ⟨h1, h2⟩ := (OEvent.runCall.injEq _ _ _ _).mp (List.mem_singleton.mp hmem)
        exact .inr ⟨h1, hb, h2⟩
      · rw [if_neg hb] at hmem
        exact absurd hmem (List.not_mem_nil _)
    · rw [List.mem_cons] at hmem
      rcases hmem with h | hmem
      · exact absurd h (by simp)
      rw [List.mem_cons] at hmem
      rcases hmem with h | hmem
      · exact absurd h (by simp)
      obtain ⟨i, _, heq⟩ := List.mem_map.mp hmem
      obtain ⟨h1, h2⟩ := (OEvent.runCall.injEq _ _ _ _).mp heq
      exact .inl h1.symm
  · intro hb
    rw [if_pos hb]
    exact List.mem_append_left _ (List.mem_singleton.mpr rfl)

/-- C3 amended witness: run-on-startup enabled, startup run failing — the
startup run is invoked under the background (unbounded) context. -/
theorem orchestrator_run_contexts_witness :
    OEvent.runCall CtxKind.background (some "pg_dump failed") ∈
      (orchestrate
        { configResult := .ok ⟨"0 3 * * *", "local", 7, true, 30⟩
          storageResult := none
          setStorageResult := none
          testConnResult := none
          startupRunResult := some "pg_dump failed"
          addFuncResult := .ok 1
          ticks := 2
          tickRunResult := fun _ => none }).1 :=
  (orchestrator_run_contexts _ ⟨"0 3 * * *", "local", 7, true, 30⟩ 1
      rfl rfl rfl rfl rfl).2 rfl

/-- C8: when `TestConnection` fails at startup the orchestrator returns the
wrapped non-nil error, the cron scheduler is never registered, and the backup
`Run` is never invoked — for every configuration, run-on-startup included. -/
theorem orchestrator_testconn_failure_fatal (env : OrchEnv) (cfg : Config) (e : String)
    (hc : env.configResult = .ok cfg) (hs : env.storageResult = none)
    (hss : env.setStorageResult = none)
    (ht : env.testConnResult = some e) :
    (orchestrate env).2 = some ("failed to connect to PostgreSQL: " ++ e) ∧
    (orchestrate env).1 = [] ∧
    (∀ i, OEvent.cronRegistered i ∉ (orchestrate env).1) ∧
    (∀ c res, OEvent.runCall c res ∉ (orchestrate env).1) := by
  have h : orchestrate env = ([], some ("failed to connect to PostgreSQL: " ++ e)) := by
    simp only [orchestrate, hc, hs, hss, ht]
  rw [h]
  exact ⟨rfl, rfl, fun i => List.not_mem_nil _, fun c res => List.not_mem_nil _⟩

/-- C8 witness: connection probe fails under a run-on-startup configuration —
non-nil error, empty trace. -/
theorem orchestrator_testconn_failure_fatal_witness :
    ((orchestrate
        { configResult := .ok ⟨"0 3 * * *", "local", 7, true, 30⟩
          storageResult := none
          setStorageResult := none
          testConnResult := some "connection refused"
          startupRunResult := none
          addFuncResult := .ok 1
          ticks := 5
          tickRunResult := fun _ => none }).2 =
      some ("failed to connect to PostgreSQL: connection refused")) ∧
    ((orchestrate
        { configResult := .ok ⟨"0 3 * * *", "local", 7, true, 30⟩
          storageResult := none
          setStorageResult := none
          testConnResult := some "connection refused"
          startupRunResult := none
          addFuncResult := .ok 1
          ticks := 5
          tickRunResult := fun _ => none }).1 = []) :=
  have h := orchestrator_testconn_failure_fatal
    { configResult := .ok ⟨"0 3 * * *", "local", 7, true, 30⟩
      storageResult := none
      setStorageResult := none
      testConnResult := some "connection refused"
      startupRunResult := none
      addFuncResult := .ok 1
      ticks := 5
      tickRunResult := fun _ => none }
    ⟨"0 3 * * *", "local", 7, true, 30⟩ "connection refused" rfl rfl rfl rfl
  ⟨h.1, h.2.1⟩

/-- C9: whatever the outcome of the startup-triggered run and of every
scheduled-tick run, the orchestrator's result is `nil` (never fatal), the
scheduler is still registered and started, and every later tick's run is still
invoked. -/
theorem orchestrator_run_failure_nonfatal (env : OrchEnv) (cfg : Config) (id : Nat)
    (hc : env.configResult = .ok cfg) (hs : env.storageResult = none)
    (hss : env.setStorageResult = none) (ht : env.testConnResult = none)
    (ha : env.addFuncResult = .ok id) :
    (orchestrate env).2 = none ∧
    OEvent.cronRegistered id ∈ (orchestrate env).1 ∧
    OEvent.cronStarted ∈ (orchestrate env).1 ∧
    (∀ i < env.ticks,
      OEvent.runCall (CtxKind.timeoutMinutes cfg.backupTimeout) (env.tickRunResult i) ∈
        (orchestrate env).1) := by
  have hor : orchestrate env =
      ((if cfg.backupOnStart then
          [OEvent.runCall CtxKind.background env.startupRunResult]
        else []) ++
        OEvent.cronRegistered id :: OEvent.cronStarted ::
          (List.range env.ticks).map (fun i =>
            OEvent.runCall (CtxKind.timeoutMinutes cfg.backupTimeout)
              (env.tickRunResult i)),
        none) := by
    simp only [orchestrate, hc, hs, hss, ht, ha]
  rw [hor]
  refine ⟨rfl, ?_, ?_, ?_⟩
  · exact List.mem_append_right _ (List.mem_cons_self _ _)
  · exact List.mem_append_right _ (List.mem_cons_of_mem _ (List.mem_cons_self _ _))
  · intro i hi
    refine List.mem_append_right _
      (List.mem_cons_of_mem _ (List.mem_cons_of_mem _ ?_))
    exact List.mem_map.mpr ⟨i, List.mem_range.mpr hi, rfl⟩

/-- C9 witness: startup run fails and the first scheduled run fails — the
orchestrator still returns `nil`, registers the scheduler, and runs later
ticks. -/
theorem orchestrator_run_failure_nonfatal_witness :
    ((orchestrate
        { configResult := .ok ⟨"0 3 * * *", "local", 7, true, 30⟩
          storageResult := none
          setStorageResult := none
          testConnResult := none
          startupRunResult := some "pg_dump failed"
          addFuncResult := .ok 4
          ticks := 2
          tickRunResult := fun i => if i = 0 then some "upload failed" else none }).2 =
      none) ∧
    OEvent.cronRegistered 4 ∈
      (orchestrate
        { configResult := .ok ⟨"0 3 * * *", "local", 7, true, 30⟩
          storageResult := none
          setStorageResult := none
          testConnResult := none
          startupRunResult := some "pg_dump failed"
          addFuncResult := .ok 4
          ticks := 2
          tickRunResult := fun i => if i = 0 then some "upload failed" else none }).1 ∧
    OEvent.runCall (CtxKind.timeoutMinutes 30) none ∈
      (orchestrate
        { configResult := .ok ⟨"0 3 * * *", "local", 7, true, 30⟩
          storageResult := none
          setStorageResult := none
          testConnResult := none
          startupRunResult := some "pg_dump failed"
          addFuncResult := .ok 4
          ticks := 2
          tickRunResult := fun i => if i = 0 then some "upload failed" else none }).1 :=
  have h := orchestrator_run_failure_nonfatal
    { configResult := .ok ⟨"0 3 * * *", "local", 7, true, 30⟩
      storageResult := none
      setStorageResult := none
      testConnResult := none
      startupRunResult := some "pg_dump failed"
      addFuncResult := .ok 4
      ticks := 2
      tickRunResult := fun i => if i = 0 then some "upload failed" else none }
    ⟨"0 3 * * *", "local", 7, true, 30⟩ 4 rfl rfl rfl rfl rfl
  ⟨h.1, h.2.1, by simpa using h.2.2.2 1 (by decide)⟩

end Backuprunner
